import Mathlib

/-!
Verification of the ZATCA QR-code TLV parser
(`client/src/lib/zatca-parser.ts`: `parseZATCAQR` / `isValidZATCAQR`).

Modelling conventions (shallow embedding of the TypeScript source):
* a JavaScript string is a list of its UTF-16 code units (`List Nat`,
  each element the value returned by `charCodeAt`);
* a JavaScript number is `JSNum`: `nan`, a signed infinity, or an exact
  rational (the source only ever produces values of `parseFloat` on short
  decimal strings and one subtraction, where IEEE doubles behave exactly
  like the rationals modelled here);
* `undefined`-able record fields become `Option`;
* the wall clock read by `Date.now()` becomes an explicit `now : Nat`
  argument.
-/

/-- Model of a JavaScript number as produced and consumed by this parser:
`NaN`, a signed infinity, or an exact rational value. -/
inductive JSNum where
  | nan : JSNum
  | inf : Bool → JSNum
  | num : ℚ → JSNum
deriving DecidableEq

/-- Truthiness of a JavaScript number: `NaN`, `0` and `-0` are falsy,
everything else (including the infinities) is truthy. -/
def JSNum.truthy : JSNum → Bool
  | JSNum.nan => false
  | JSNum.inf _ => true
  | JSNum.num q => decide (q ≠ 0)

/-- Subtraction of JavaScript numbers (`a - b`). `NaN` is absorbing;
`∞ − ∞` with equal signs is `NaN`; finite values subtract exactly. -/
def JSNum.sub : JSNum → JSNum → JSNum
  | JSNum.nan, _ => JSNum.nan
  | JSNum.inf _, JSNum.nan => JSNum.nan
  | JSNum.num _, JSNum.nan => JSNum.nan
  | JSNum.inf a, JSNum.inf b => if a = b then JSNum.nan else JSNum.inf a
  | JSNum.inf a, JSNum.num _ => JSNum.inf a
  | JSNum.num _, JSNum.inf b => JSNum.inf (!b)
  | JSNum.num a, JSNum.num b => JSNum.num (a - b)

/-- Decimal digit code units `'0'`..`'9'`. -/
def isDigit (c : Nat) : Bool :=
  decide (48 ≤ c ∧ c ≤ 57)

/-- Numeric value of a list of decimal digit code units (most significant
first), as read left to right. -/
def digitsToNat (l : List Nat) : Nat :=
  l.foldl (fun a c => a * 10 + (c - 48)) 0

/-- Power of ten with an integer exponent, as an exact rational. -/
def qpow10 : Int → ℚ
  | Int.ofNat n => ((10 ^ n : Nat) : ℚ)
  | Int.negSucc n => 1 / ((10 ^ (n + 1) : Nat) : ℚ)

/-- Whitespace skipped by JavaScript `parseFloat` (ASCII part plus the
usual Unicode members). -/
def jsWhitespace (c : Nat) : Bool :=
  decide (c = 9 ∨ c = 10 ∨ c = 11 ∨ c = 12 ∨ c = 13 ∨ c = 32 ∨
    c = 160 ∨ c = 8232 ∨ c = 8233 ∨ c = 65279)

/-- Mantissa of a decimal literal: leading digits, optionally a dot and
more digits; fails when no digit is present at all.  Returns the exact
value together with the unconsumed remainder of the string. -/
def parseMantissa (s : List Nat) : Option (ℚ × List Nat) :=
  let ip := s.takeWhile isDigit
  let r1 := s.dropWhile isDigit
  match r1 with
  | 46 :: r2 =>
      let fp := r2.takeWhile isDigit
      let r3 := r2.dropWhile isDigit
      if ip = [] ∧ fp = [] then none
      else some (((digitsToNat ip : Nat) : ℚ) +
        ((digitsToNat fp : Nat) : ℚ) / ((10 ^ fp.length : Nat) : ℚ), r3)
  | _ => if ip = [] then none else some (((digitsToNat ip : Nat) : ℚ), r1)

/-- Exponent part of a decimal literal: `e`/`E`, an optional sign, then at
least one digit; anything else contributes no exponent. -/
def parseExpPart (s : List Nat) : Option Int :=
  match s with
  | [] => none
  | c :: rest =>
      if c = 101 ∨ c = 69 then
        match rest with
        | 43 :: r2 =>
            let d := r2.takeWhile isDigit
            if d = [] then none else some ((digitsToNat d : Nat) : Int)
        | 45 :: r2 =>
            let d := r2.takeWhile isDigit
            if d = [] then none else some (-((digitsToNat d : Nat) : Int))
        | _ =>
            let d := rest.takeWhile isDigit
            if d = [] then none else some ((digitsToNat d : Nat) : Int)
      else none

/-- Code units of the literal `Infinity`. -/
def infinityChars : List Nat := [73, 110, 102, 105, 110, 105, 116, 121]

/-- Model of JavaScript `parseFloat`: skip leading whitespace, read an
optional sign, then the longest prefix that is `Infinity` or a decimal
literal with optional fraction and exponent; `NaN` when no prefix
parses.  Trailing garbage is ignored. -/
def parseFloat (s : List Nat) : JSNum :=
  let s1 := s.dropWhile jsWhitespace
  let neg := match s1 with
    | 45 :: _ => true
    | _ => false
  let s2 := match s1 with
    | 43 :: r => r
    | 45 :: r => r
    | _ => s1
  if infinityChars.isPrefixOf s2 then JSNum.inf neg
  else
    match parseMantissa s2 with
    | none => JSNum.nan
    | some (m, rest) =>
        let e : Int := (parseExpPart rest).getD 0
        let v : ℚ := m * qpow10 e
        JSNum.num (if neg then -v else v)

/-- ASCII whitespace removed by the forgiving-base64 decode behind
JavaScript `atob`. -/
def asciiWhitespace (c : Nat) : Bool :=
  decide (c = 9 ∨ c = 10 ∨ c = 12 ∨ c = 13 ∨ c = 32)

/-- Value of one base64 alphabet character, or `none` for a character
outside the alphabet (including `=`). -/
def b64Val (c : Nat) : Option Nat :=
  if 65 ≤ c ∧ c ≤ 90 then some (c - 65)
  else if 97 ≤ c ∧ c ≤ 122 then some (c - 71)
  else if 48 ≤ c ∧ c ≤ 57 then some (c + 4)
  else if c = 43 then some 62
  else if c = 47 then some 63
  else none

/-- Translate every character to its base64 value, failing on the first
character outside the alphabet. -/
def b64Vals : List Nat → Option (List Nat)
  | [] => some []
  | c :: rest =>
      match b64Val c with
      | none => none
      | some v =>
          match b64Vals rest with
          | none => none
          | some vs => some (v :: vs)

/-- Remove one or two trailing `=` padding characters. -/
def stripPad (l : List Nat) : List Nat :=
  match l.reverse with
  | 61 :: 61 :: r => r.reverse
  | 61 :: r => r.reverse
  | _ => l

/-- Reassemble 6-bit groups into bytes: four groups give three bytes, a
final two or three groups give one or two bytes. -/
def b64DecodeVals : List Nat → List Nat
  | a :: b :: c :: d :: rest =>
      let n := ((a * 64 + b) * 64 + c) * 64 + d
      n / 65536 :: n / 256 % 256 :: n % 256 :: b64DecodeVals rest
  | [a, b] => [(a * 64 + b) / 16]
  | [a, b, c] =>
      let n := (a * 64 + b) * 64 + c
      [n / 1024, n / 4 % 256]
  | [_] => []
  | [] => []

/-- Model of JavaScript `atob` (forgiving-base64 decode): strip ASCII
whitespace, strip padding when the length is a multiple of four, reject a
length `≡ 1 (mod 4)` or any character outside the alphabet, and otherwise
decode to bytes.  `none` models the thrown `InvalidCharacterError`. -/
def atob (s : List Nat) : Option (List Nat) :=
  let data := s.filter (fun c => !asciiWhitespace c)
  let data := if data.length % 4 = 0 then stripPad data else data
  if data.length % 4 = 1 then none
  else (b64Vals data).map b64DecodeVals

/-- Runtime shape of the record built by `parseZATCAQR`.  The TypeScript
source declares every field non-optional but builds a
`Partial<ZATCAData>` and returns it through an unchecked `as` cast, so
at runtime each field may be absent; the `Option` fields model exactly
that. -/
structure ZATCAData where
  sellerName : Option (List Nat) := none
  vatNumber : Option (List Nat) := none
  invoiceNumber : Option (List Nat) := none
  invoiceDate : Option (List Nat) := none
  subtotal : Option JSNum := none
  vatAmount : Option JSNum := none
  totalAmount : Option JSNum := none
deriving DecidableEq

/-- Truthiness of a possibly-`undefined` JavaScript string: `undefined`
and the empty string are falsy. -/
def strTruthy : Option (List Nat) → Bool
  | none => false
  | some s => !s.isEmpty

/-- Truthiness of a possibly-`undefined` JavaScript number. -/
def numTruthy : Option JSNum → Bool
  | none => false
  | some n => n.truthy

/-- Body of the `switch (tag)` statement: tags 1 and 2 store the raw
value, tag 3 stores `value.split('T')[0]` (the code units before the
first `'T'` = 84), tags 4 and 5 store `parseFloat(value)`, and every
other tag leaves the record unchanged. -/
def applyTag (d : ZATCAData) (tag : Nat) (value : List Nat) : ZATCAData :=
  if tag = 1 then { d with sellerName := some value }
  else if tag = 2 then { d with vatNumber := some value }
  else if tag = 3 then { d with invoiceDate := some (value.takeWhile (fun c => c != 84)) }
  else if tag = 4 then { d with totalAmount := some (parseFloat value) }
  else if tag = 5 then { d with vatAmount := some (parseFloat value) }
  else d

/-- The `while (position < decodedData.length)` loop.  The list argument
is the part of `decodedData` from the cursor on: one remaining code unit
means `position + 1 >= length` (break); a head pair `tag :: len` with
fewer than `len` units after it means `position + 2 + length > length`
(break); otherwise the value is the next `len` units and the cursor
advances by `2 + len`. -/
def tlvLoopF : Nat → List Nat → ZATCAData → ZATCAData
  | 0, _, d => d
  | _ + 1, [], d => d
  | _ + 1, [_], d => d
  | fuel + 1, tag :: len :: rest, d =>
      if rest.length < len then d
      else tlvLoopF fuel (rest.drop len) (applyTag d tag (rest.take len))

/-- The `while (position < decodedData.length)` loop of the source, with
the fuel instantiated to the input length (each iteration consumes at
least two code units, so the fuel never runs out; see
`tlvLoop_cons_cons`). -/
def tlvLoop (l : List Nat) (d : ZATCAData) : ZATCAData :=
  tlvLoopF l.length l d

/-- Step `// Calculate subtotal if we have total and VAT`:
`if (data.totalAmount && data.vatAmount) data.subtotal = data.totalAmount - data.vatAmount`. -/
def computeSubtotal (data : ZATCAData) : ZATCAData :=
  if numTruthy data.totalAmount && numTruthy data.vatAmount then
    { data with subtotal := some (JSNum.sub (data.totalAmount.getD JSNum.nan)
        (data.vatAmount.getD JSNum.nan)) }
  else data

/-- Code units of the literal `INV-`. -/
def invHead : List Nat := [73, 78, 86, 45]

/-- Decimal digit code units of a natural number, as JavaScript renders
`Date.now()` inside a template literal. -/
def natDigits (n : Nat) : List Nat :=
  (Nat.toDigits 10 n).map Char.toNat

/-- Step `// Generate invoice number if not present`:
`if (!data.invoiceNumber) data.invoiceNumber = ` the string `INV-` followed
by the decimal rendering of `Date.now()` (here the explicit `now`). -/
def fillInvoiceNumber (now : Nat) (data : ZATCAData) : ZATCAData :=
  if !strTruthy data.invoiceNumber then
    { data with invoiceNumber := some (invHead ++ natDigits now) }
  else data

/-- Step `// Validate required fields`:
`if (data.sellerName && data.vatNumber && data.totalAmount !== undefined)`
return the record, else `null`. -/
def validateRequired (data : ZATCAData) : Option ZATCAData :=
  if strTruthy data.sellerName && strTruthy data.vatNumber
      && data.totalAmount.isSome then
    some data
  else none

/-- The part of `parseZATCAQR` after base64 handling: run the TLV loop
from position 0 on the decoded data, then the three post-processing
steps in source order. -/
def interpretDecoded (now : Nat) (decodedData : List Nat) : Option ZATCAData :=
  validateRequired (fillInvoiceNumber now (computeSubtotal (tlvLoop decodedData {})))

/-- The `try { decodedData = atob(qrData) } catch { decodedData = qrData }`
preprocessor: base64-decode when possible, otherwise treat the input as
already decoded. -/
def decodeRaw (qrData : List Nat) : List Nat :=
  match atob qrData with
  | some d => d
  | none => qrData

/-- Model of `parseZATCAQR`, with the wall clock made explicit. -/
def parseZATCAQR (now : Nat) (qrData : List Nat) : Option ZATCAData :=
  interpretDecoded now (decodeRaw qrData)

/-- Model of `isValidZATCAQR`: `parseZATCAQR(qrData) !== null`. -/
def isValidZATCAQR (now : Nat) (qrData : List Nat) : Bool :=
  (parseZATCAQR now qrData).isSome

/-- The (tag, value) pairs of every complete TLV field of a code-unit
sequence, in walk order, exactly as the loop of `parseZATCAQR` visits
them: same cursor movement and the same two truncation stops. -/
def tlvFieldsF : Nat → List Nat → List (Nat × List Nat)
  | 0, _ => []
  | _ + 1, [] => []
  | _ + 1, [_] => []
  | fuel + 1, tag :: len :: rest =>
      if rest.length < len then []
      else (tag, rest.take len) :: tlvFieldsF fuel (rest.drop len)

/-- The field walker with the fuel instantiated to the input length; the
unfolding equations `tlvFields_nil`, `tlvFields_single` and
`tlvFields_step` recover the direct recursion. -/
def tlvFields (l : List Nat) : List (Nat × List Nat) :=
  tlvFieldsF l.length l

/-- Value of the last field with the given tag, if any. -/
def lastVal (t : Nat) : List (Nat × List Nat) → Option (List Nat)
  | [] => none
  | f :: rest =>
      match lastVal t rest with
      | some w => some w
      | none => if f.1 = t then some f.2 else none

/-- Whether some field of the list carries the given tag. -/
def hasTag (t : Nat) (fs : List (Nat × List Nat)) : Bool :=
  fs.any (fun f => f.1 = t)

/-- Fold the `switch` body over a field list. -/
def applyFields (fs : List (Nat × List Nat)) (d : ZATCAData) : ZATCAData :=
  fs.foldl (fun d f => applyTag d f.1 f.2) d

/-- Serialize a field list back into a TLV code-unit sequence
(tag, value length, value bytes for each field in order). -/
def encodeFields (fs : List (Nat × List Nat)) : List Nat :=
  fs.foldr (fun f acc => f.1 :: f.2.length :: (f.2 ++ acc)) []

/-- TLV fields of the decoded form of a raw input. -/
def decodedFields (qrData : List Nat) : List (Nat × List Nat) :=
  tlvFields (decodeRaw qrData)

theorem tlvFieldsF_fuel (fuel1 : Nat) :
    ∀ (fuel2 : Nat) (l : List Nat), l.length ≤ fuel1 → l.length ≤ fuel2 →
      tlvFieldsF fuel1 l = tlvFieldsF fuel2 l := by
  induction fuel1 with
  | zero =>
      intro fuel2 l h1 h2
      have hnil : l = [] := List.length_eq_zero.mp (Nat.le_zero.mp h1)
      subst hnil
      cases fuel2 <;> rfl
  | succ n ih =>
      intro fuel2 l h1 h2
      match l, fuel2 with
      | [], f2 => cases f2 <;> rfl
      | [x], 0 => exact absurd h2 (by simp)
      | [x], f2 + 1 => rfl
      | tag :: len :: rest, 0 => exact absurd h2 (by simp)
      | tag :: len :: rest, f2 + 1 =>
          simp only [tlvFieldsF]
          split
          · rfl
          · refine congrArg _ (ih f2 (rest.drop len) ?_ ?_) <;>
              simp only [List.length_cons] at h1 h2 <;>
              simp only [List.length_drop] <;> omega

theorem tlvFields_nil : tlvFields [] = [] := rfl

theorem tlvFields_single (x : Nat) : tlvFields [x] = [] := rfl

theorem tlvFields_step (tag len : Nat) (rest : List Nat) :
    tlvFields (tag :: len :: rest) =
      if rest.length < len then []
      else (tag, rest.take len) :: tlvFields (rest.drop len) := by
  show tlvFieldsF (tag :: len :: rest).length (tag :: len :: rest) = _
  rw [show (tag :: len :: rest).length = rest.length + 2 from by simp]
  simp only [tlvFieldsF]
  split
  · rfl
  · refine congrArg _ (tlvFieldsF_fuel (rest.length + 1) (rest.drop len).length
      (rest.drop len) ?_ le_rfl)
    simp only [List.length_drop]
    omega

theorem tlvLoopF_eq (fuel : Nat) :
    ∀ (l : List Nat) (d : ZATCAData),
      tlvLoopF fuel l d = applyFields (tlvFieldsF fuel l) d := by
  induction fuel with
  | zero => intro l d; rfl
  | succ n ih =>
      intro l d
      match l with
      | [] => rfl
      | [x] => rfl
      | tag :: len :: rest =>
          simp only [tlvLoopF, tlvFieldsF]
          split
          · rfl
          · rw [ih]
            simp [applyFields]

theorem tlvLoop_eq_applyFields (l : List Nat) (d : ZATCAData) :
    tlvLoop l d = applyFields (tlvFields l) d :=
  tlvLoopF_eq l.length l d

theorem applyTag_sellerName (d : ZATCAData) (t : Nat) (v : List Nat) :
    (applyTag d t v).sellerName = if t = 1 then some v else d.sellerName := by
  simp only [applyTag]
  split_ifs <;> rfl

theorem applyTag_vatNumber (d : ZATCAData) (t : Nat) (v : List Nat) :
    (applyTag d t v).vatNumber = if t = 2 then some v else d.vatNumber := by
  simp only [applyTag]
  split_ifs <;> first | rfl | simp_all

theorem applyTag_invoiceDate (d : ZATCAData) (t : Nat) (v : List Nat) :
    (applyTag d t v).invoiceDate =
      if t = 3 then some (v.takeWhile (fun c => c != 84)) else d.invoiceDate := by
  simp only [applyTag]
  split_ifs <;> first | rfl | simp_all

theorem applyTag_totalAmount (d : ZATCAData) (t : Nat) (v : List Nat) :
    (applyTag d t v).totalAmount = if t = 4 then some (parseFloat v) else d.totalAmount := by
  simp only [applyTag]
  split_ifs <;> first | rfl | simp_all

theorem applyTag_vatAmount (d : ZATCAData) (t : Nat) (v : List Nat) :
    (applyTag d t v).vatAmount = if t = 5 then some (parseFloat v) else d.vatAmount := by
  simp only [applyTag]
  split_ifs <;> first | rfl | simp_all

theorem applyTag_invoiceNumber (d : ZATCAData) (t : Nat) (v : List Nat) :
    (applyTag d t v).invoiceNumber = d.invoiceNumber := by
  simp only [applyTag]
  split_ifs <;> rfl

theorem applyTag_subtotal (d : ZATCAData) (t : Nat) (v : List Nat) :
    (applyTag d t v).subtotal = d.subtotal := by
  simp only [applyTag]
  split_ifs <;> rfl

theorem applyFields_sellerName (fs : List (Nat × List Nat)) (d : ZATCAData) :
    (applyFields fs d).sellerName = (lastVal 1 fs).elim d.sellerName some := by
  induction fs generalizing d with
  | nil => rfl
  | cons f rest ih =>
      simp only [applyFields, List.foldl_cons] at *
      rw [ih]
      cases h : lastVal 1 rest with
      | some w => simp [lastVal, h]
      | none =>
          simp only [lastVal, h, applyTag_sellerName]
          by_cases ht : f.1 = 1 <;> simp [ht]

theorem applyFields_vatNumber (fs : List (Nat × List Nat)) (d : ZATCAData) :
    (applyFields fs d).vatNumber = (lastVal 2 fs).elim d.vatNumber some := by
  induction fs generalizing d with
  | nil => rfl
  | cons f rest ih =>
      simp only [applyFields, List.foldl_cons] at *
      rw [ih]
      cases h : lastVal 2 rest with
      | some w => simp [lastVal, h]
      | none =>
          simp only [lastVal, h, applyTag_vatNumber]
          by_cases ht : f.1 = 2 <;> simp [ht]

theorem applyFields_invoiceDate (fs : List (Nat × List Nat)) (d : ZATCAData) :
    (applyFields fs d).invoiceDate =
      (lastVal 3 fs).elim d.invoiceDate (fun v => some (v.takeWhile (fun c => c != 84))) := by
  induction fs generalizing d with
  | nil => rfl
  | cons f rest ih =>
      simp only [applyFields, List.foldl_cons] at *
      rw [ih]
      cases h : lastVal 3 rest with
      | some w => simp [lastVal, h]
      | none =>
          simp only [lastVal, h, applyTag_invoiceDate]
          by_cases ht : f.1 = 3 <;> simp [ht]

theorem applyFields_totalAmount (fs : List (Nat × List Nat)) (d : ZATCAData) :
    (applyFields fs d).totalAmount =
      (lastVal 4 fs).elim d.totalAmount (fun v => some (parseFloat v)) := by
  induction fs generalizing d with
  | nil => rfl
  | cons f rest ih =>
      simp only [applyFields, List.foldl_cons] at *
      rw [ih]
      cases h : lastVal 4 rest with
      | some w => simp [lastVal, h]
      | none =>
          simp only [lastVal, h, applyTag_totalAmount]
          by_cases ht : f.1 = 4 <;> simp [ht]

theorem applyFields_vatAmount (fs : List (Nat × List Nat)) (d : ZATCAData) :
    (applyFields fs d).vatAmount =
      (lastVal 5 fs).elim d.vatAmount (fun v => some (parseFloat v)) := by
  induction fs generalizing d with
  | nil => rfl
  | cons f rest ih =>
      simp only [applyFields, List.foldl_cons] at *
      rw [ih]
      cases h : lastVal 5 rest with
      | some w => simp [lastVal, h]
      | none =>
          simp only [lastVal, h, applyTag_vatAmount]
          by_cases ht : f.1 = 5 <;> simp [ht]

theorem applyFields_invoiceNumber (fs : List (Nat × List Nat)) (d : ZATCAData) :
    (applyFields fs d).invoiceNumber = d.invoiceNumber := by
  induction fs generalizing d with
  | nil => rfl
  | cons f rest ih =>
      simp only [applyFields, List.foldl_cons] at *
      rw [ih, applyTag_invoiceNumber]

theorem applyFields_subtotal (fs : List (Nat × List Nat)) (d : ZATCAData) :
    (applyFields fs d).subtotal = d.subtotal := by
  induction fs generalizing d with
  | nil => rfl
  | cons f rest ih =>
      simp only [applyFields, List.foldl_cons] at *
      rw [ih, applyTag_subtotal]

theorem computeSubtotal_sellerName (d : ZATCAData) :
    (computeSubtotal d).sellerName = d.sellerName := by
  simp only [computeSubtotal]
  split <;> rfl

theorem computeSubtotal_vatNumber (d : ZATCAData) :
    (computeSubtotal d).vatNumber = d.vatNumber := by
  simp only [computeSubtotal]
  split <;> rfl

theorem computeSubtotal_invoiceNumber (d : ZATCAData) :
    (computeSubtotal d).invoiceNumber = d.invoiceNumber := by
  simp only [computeSubtotal]
  split <;> rfl

theorem computeSubtotal_invoiceDate (d : ZATCAData) :
    (computeSubtotal d).invoiceDate = d.invoiceDate := by
  simp only [computeSubtotal]
  split <;> rfl

theorem computeSubtotal_totalAmount (d : ZATCAData) :
    (computeSubtotal d).totalAmount = d.totalAmount := by
  simp only [computeSubtotal]
  split <;> rfl

theorem computeSubtotal_vatAmount (d : ZATCAData) :
    (computeSubtotal d).vatAmount = d.vatAmount := by
  simp only [computeSubtotal]
  split <;> rfl

theorem computeSubtotal_subtotal (d : ZATCAData) :
    (computeSubtotal d).subtotal =
      if numTruthy d.totalAmount && numTruthy d.vatAmount then
        some (JSNum.sub (d.totalAmount.getD JSNum.nan) (d.vatAmount.getD JSNum.nan))
      else d.subtotal := by
  simp only [computeSubtotal]
  split <;> rfl

theorem fillInvoiceNumber_sellerName (now : Nat) (d : ZATCAData) :
    (fillInvoiceNumber now d).sellerName = d.sellerName := by
  simp only [fillInvoiceNumber]
  split <;> rfl

theorem fillInvoiceNumber_vatNumber (now : Nat) (d : ZATCAData) :
    (fillInvoiceNumber now d).vatNumber = d.vatNumber := by
  simp only [fillInvoiceNumber]
  split <;> rfl

theorem fillInvoiceNumber_invoiceDate (now : Nat) (d : ZATCAData) :
    (fillInvoiceNumber now d).invoiceDate = d.invoiceDate := by
  simp only [fillInvoiceNumber]
  split <;> rfl

theorem fillInvoiceNumber_totalAmount (now : Nat) (d : ZATCAData) :
    (fillInvoiceNumber now d).totalAmount = d.totalAmount := by
  simp only [fillInvoiceNumber]
  split <;> rfl

theorem fillInvoiceNumber_vatAmount (now : Nat) (d : ZATCAData) :
    (fillInvoiceNumber now d).vatAmount = d.vatAmount := by
  simp only [fillInvoiceNumber]
  split <;> rfl

theorem fillInvoiceNumber_subtotal (now : Nat) (d : ZATCAData) :
    (fillInvoiceNumber now d).subtotal = d.subtotal := by
  simp only [fillInvoiceNumber]
  split <;> rfl

theorem fillInvoiceNumber_of_none (now : Nat) (d : ZATCAData)
    (h : d.invoiceNumber = none) :
    (fillInvoiceNumber now d).invoiceNumber = some (invHead ++ natDigits now) := by
  simp [fillInvoiceNumber, h, strTruthy]

theorem validateRequired_eq_some (d r : ZATCAData) :
    validateRequired d = some r ↔
      ((strTruthy d.sellerName && strTruthy d.vatNumber && d.totalAmount.isSome) = true
        ∧ r = d) := by
  simp only [validateRequired]
  split <;> rename_i h <;> simp [h, eq_comm]

theorem validateRequired_isSome (d : ZATCAData) :
    (validateRequired d).isSome =
      (strTruthy d.sellerName && strTruthy d.vatNumber && d.totalAmount.isSome) := by
  simp only [validateRequired]
  split <;> simp_all

theorem parse_isSome (now : Nat) (q : List Nat) :
    (parseZATCAQR now q).isSome =
      (strTruthy (lastVal 1 (decodedFields q)) && strTruthy (lastVal 2 (decodedFields q))
        && (lastVal 4 (decodedFields q)).isSome) := by
  have h1 := applyFields_sellerName (decodedFields q) {}
  have h2 := applyFields_vatNumber (decodedFields q) {}
  have h4 := applyFields_totalAmount (decodedFields q) {}
  simp only [parseZATCAQR, interpretDecoded, decodedFields] at *
  rw [tlvLoop_eq_applyFields, validateRequired_isSome,
    fillInvoiceNumber_sellerName, fillInvoiceNumber_vatNumber,
    fillInvoiceNumber_totalAmount,
    computeSubtotal_sellerName, computeSubtotal_vatNumber,
    computeSubtotal_totalAmount, h1, h2, h4]
  cases lastVal 1 (tlvFields (decodeRaw q)) <;>
    cases lastVal 2 (tlvFields (decodeRaw q)) <;>
    cases lastVal 4 (tlvFields (decodeRaw q)) <;> simp [strTruthy]

theorem parse_proj (now : Nat) (q : List Nat) (r : ZATCAData)
    (h : parseZATCAQR now q = some r) :
    r.sellerName = lastVal 1 (decodedFields q) ∧
    r.vatNumber = lastVal 2 (decodedFields q) ∧
    r.invoiceNumber = some (invHead ++ natDigits now) ∧
    r.invoiceDate = (lastVal 3 (decodedFields q)).map
      (fun w => w.takeWhile (fun c => c != 84)) ∧
    r.totalAmount = (lastVal 4 (decodedFields q)).map parseFloat ∧
    r.vatAmount = (lastVal 5 (decodedFields q)).map parseFloat ∧
    r.subtotal = (if numTruthy ((lastVal 4 (decodedFields q)).map parseFloat) &&
        numTruthy ((lastVal 5 (decodedFields q)).map parseFloat) then
        some (JSNum.sub (((lastVal 4 (decodedFields q)).map parseFloat).getD JSNum.nan)
          (((lastVal 5 (decodedFields q)).map parseFloat).getD JSNum.nan))
      else none) := by
  have hy : validateRequired (fillInvoiceNumber now
      (computeSubtotal (applyFields (decodedFields q) {}))) = some r := by
    simpa only [parseZATCAQR, interpretDecoded, decodedFields,
      tlvLoop_eq_applyFields] using h
  have hr := ((validateRequired_eq_some _ r).mp hy).2
  subst hr
  have e1 := applyFields_sellerName (decodedFields q) {}
  have e2 := applyFields_vatNumber (decodedFields q) {}
  have e3 := applyFields_invoiceDate (decodedFields q) {}
  have e4 := applyFields_totalAmount (decodedFields q) {}
  have e5 := applyFields_vatAmount (decodedFields q) {}
  have e6 := applyFields_invoiceNumber (decodedFields q) ({} : ZATCAData)
  have e7 := applyFields_subtotal (decodedFields q) ({} : ZATCAData)
  refine ⟨?_, ?_, ?_, ?_, ?_, ?_, ?_⟩
  · rw [fillInvoiceNumber_sellerName, computeSubtotal_sellerName, e1]
    cases lastVal 1 (decodedFields q) <;> rfl
  · rw [fillInvoiceNumber_vatNumber, computeSubtotal_vatNumber, e2]
    cases lastVal 2 (decodedFields q) <;> rfl
  · exact fillInvoiceNumber_of_none now _ (by rw [computeSubtotal_invoiceNumber, e6])
  · rw [fillInvoiceNumber_invoiceDate, computeSubtotal_invoiceDate, e3]
    cases lastVal 3 (decodedFields q) <;> rfl
  · rw [fillInvoiceNumber_totalAmount, computeSubtotal_totalAmount, e4]
    cases lastVal 4 (decodedFields q) <;> rfl
  · rw [fillInvoiceNumber_vatAmount, computeSubtotal_vatAmount, e5]
    cases lastVal 5 (decodedFields q) <;> rfl
  · rw [fillInvoiceNumber_subtotal, computeSubtotal_subtotal, e4, e5, e7]
    cases lastVal 4 (decodedFields q) <;> cases lastVal 5 (decodedFields q) <;> rfl

theorem lastVal_none_of_hasTag_false (t : Nat) (fs : List (Nat × List Nat))
    (h : hasTag t fs = false) : lastVal t fs = none := by
  induction fs with
  | nil => rfl
  | cons f rest ih =>
      simp only [hasTag, List.any_cons, Bool.or_eq_false_iff] at h
      simp only [lastVal, ih (by simp [hasTag, h.2])]
      simp only [decide_eq_false_iff_not] at h
      simp [h.1]

theorem applyTag_unknown (d : ZATCAData) (t : Nat) (v : List Nat)
    (h : ¬(t = 1 ∨ t = 2 ∨ t = 3 ∨ t = 4 ∨ t = 5)) : applyTag d t v = d := by
  push_neg at h
  obtain ⟨h1, h2, h3, h4, h5⟩ := h
  simp [applyTag, h1, h2, h3, h4, h5]

theorem applyFields_erase_unknown (fs1 fs2 : List (Nat × List Nat))
    (t : Nat) (v : List Nat) (d : ZATCAData)
    (h : ¬(t = 1 ∨ t = 2 ∨ t = 3 ∨ t = 4 ∨ t = 5)) :
    applyFields (fs1 ++ (t, v) :: fs2) d = applyFields (fs1 ++ fs2) d := by
  simp only [applyFields, List.foldl_append, List.foldl_cons]
  rw [applyTag_unknown _ _ _ h]

theorem tlvFields_encodeFields (fs : List (Nat × List Nat)) (rest : List Nat) :
    tlvFields (encodeFields fs ++ rest) = fs ++ tlvFields rest := by
  induction fs with
  | nil => simp [encodeFields, tlvFields_nil]
  | cons f fs ih =>
      have hshape : encodeFields (f :: fs) ++ rest =
          f.1 :: f.2.length :: (f.2 ++ (encodeFields fs ++ rest)) := by
        simp [encodeFields]
      rw [hshape, tlvFields_step, if_neg (by simp)]
      rw [List.take_left, List.drop_left, ih]
      simp

theorem tlvFields_take_eq (n : Nat) :
    ∀ d : List Nat, d.length ≤ n → ∀ k : Nat,
      ∃ tl, tlvFields d = tlvFields (d.take k) ++ tl := by
  induction n with
  | zero =>
      intro d hd k
      have hnil : d = [] := List.length_eq_zero.mp (Nat.le_zero.mp hd)
      subst hnil
      exact ⟨[], by simp [tlvFields_nil]⟩
  | succ n ih =>
      intro d hd k
      match d with
      | [] => exact ⟨[], by simp [tlvFields_nil]⟩
      | [x] =>
          refine ⟨[], ?_⟩
          match k with
          | 0 => simp [tlvFields_nil, tlvFields_single]
          | k + 1 => simp [tlvFields_single]
      | tag :: len :: rest =>
          match k with
          | 0 => exact ⟨tlvFields (tag :: len :: rest), by simp [tlvFields_nil]⟩
          | 1 => exact ⟨tlvFields (tag :: len :: rest), by simp [tlvFields_single]⟩
          | k + 2 =>
              have htake : (tag :: len :: rest).take (k + 2) =
                  tag :: len :: rest.take k := rfl
              by_cases h1 : rest.length < len
              · refine ⟨[], ?_⟩
                have h2 : (rest.take k).length < len := by
                  simp only [List.length_take]
                  omega
                rw [htake, tlvFields_step, tlvFields_step, if_pos h1, if_pos h2]
                rfl
              · by_cases h2 : k < len
                · refine ⟨tlvFields (tag :: len :: rest), ?_⟩
                  have h3 : (rest.take k).length < len := by
                    simp only [List.length_take]
                    omega
                  rw [htake, tlvFields_step tag len (rest.take k), if_pos h3]
                  rfl
                · obtain ⟨tl, htl⟩ := ih (rest.drop len)
                    (by simp only [List.length_cons] at hd
                        simp only [List.length_drop]
                        omega) (k - len)
                  refine ⟨tl, ?_⟩
                  have h3 : ¬ (rest.take k).length < len := by
                    simp only [List.length_take]
                    omega
                  have h4 : (rest.take k).take len = rest.take len := by
                    rw [List.take_take]
                    congr 1
                    omega
                  have h5 : (rest.take k).drop len = (rest.drop len).take (k - len) :=
                    List.drop_take k len rest
                  rw [htake, tlvFields_step tag len rest, if_neg h1,
                    tlvFields_step tag len (rest.take k), if_neg h3, h4, h5,
                    List.cons_append]
                  exact congrArg _ htl

theorem b64Val_lt (c v : Nat) (h : b64Val c = some v) : v < 64 := by
  simp only [b64Val] at h
  split_ifs at h <;> simp_all <;> omega

theorem b64Vals_lt (l vals : List Nat) (h : b64Vals l = some vals) :
    ∀ v ∈ vals, v < 64 := by
  induction l generalizing vals with
  | nil =>
      simp only [b64Vals, Option.some.injEq] at h
      subst h
      simp
  | cons c rest ih =>
      simp only [b64Vals] at h
      cases hc : b64Val c <;> rw [hc] at h
      · cases h
      · cases hr : b64Vals rest <;> rw [hr] at h
        · cases h
        · cases h
          intro x hx
          rcases List.mem_cons.mp hx with h' | h'
          · exact h' ▸ b64Val_lt c _ hc
          · exact ih _ hr x h'

theorem b64DecodeVals_lt (vals : List Nat) (h : ∀ v ∈ vals, v < 64) :
    ∀ c ∈ b64DecodeVals vals, c < 256 := by
  induction vals using b64DecodeVals.induct with
  | case1 a b c d rest ih =>
      intro x hx
      have ha : a < 64 := h a (by simp)
      have hb : b < 64 := h b (by simp)
      have hc : c < 64 := h c (by simp)
      have hd : d < 64 := h d (by simp)
      simp only [b64DecodeVals, List.mem_cons] at hx
      rcases hx with h' | h' | h' | h'
      · subst h'; omega
      · subst h'; omega
      · subst h'; omega
      · exact ih (fun v hv => h v (by simp [hv])) x h'
  | case2 a b =>
      intro x hx
      have ha : a < 64 := h a (by simp)
      have hb : b < 64 := h b (by simp)
      simp only [b64DecodeVals, List.mem_cons, List.not_mem_nil, or_false] at hx
      subst hx
      omega
  | case3 a b c =>
      intro x hx
      have ha : a < 64 := h a (by simp)
      have hb : b < 64 := h b (by simp)
      have hc : c < 64 := h c (by simp)
      simp only [b64DecodeVals, List.mem_cons, List.not_mem_nil, or_false] at hx
      rcases hx with h' | h' <;> subst h' <;> omega
  | case4 a => simp [b64DecodeVals]
  | case5 => simp [b64DecodeVals]

theorem atob_bytes_lt (q d : List Nat) (h : atob q = some d) :
    ∀ c ∈ d, c < 256 := by
  simp only [atob] at h
  split_ifs at h
  all_goals
    first
    | cases h
    | { rw [Option.map_eq_some'] at h
        obtain ⟨vals, hv, hd⟩ := h
        subst hd
        exact b64DecodeVals_lt _ (b64Vals_lt _ _ hv) }

theorem isSome_false_iff_none {α : Type} (o : Option α) :
    o.isSome = false ↔ o = none := by
  cases o <;> simp

theorem isSome_true_exists {α : Type} (o : Option α) (h : o.isSome = true) :
    ∃ a, o = some a := by
  cases o
  · cases h
  · exact ⟨_, rfl⟩

theorem strTruthy_some_ne (s : List Nat) (h : s ≠ []) :
    strTruthy (some s) = true := by
  cases s
  · exact absurd rfl h
  · rfl

theorem lastVal_append_last (t : Nat) (fs : List (Nat × List Nat)) (v : List Nat) :
    lastVal t (fs ++ [(t, v)]) = some v := by
  induction fs with
  | nil => simp [lastVal]
  | cons f rest ih => simp [lastVal, ih]

/-- C1 (corrected): for every input whose decoded TLV stream has no
complete tag-1, tag-2 or tag-4 field, `parseZATCAQR` returns null and
`isValidZATCAQR` returns false.  Contrary to the original claim, a tag-4
field holding non-numeric text is not treated as absent at validation:
`parseFloat` yields `NaN`, `NaN !== undefined` holds, so the input is
accepted and the returned record carries `totalAmount = NaN` (no error is
raised in either case). -/
theorem c1_missing_tag_rejects_nan_total_accepted (now : Nat) (q : List Nat) :
    ((hasTag 1 (decodedFields q) = false ∨ hasTag 2 (decodedFields q) = false ∨
        hasTag 4 (decodedFields q) = false) →
      parseZATCAQR now q = none ∧ isValidZATCAQR now q = false) ∧
    (∀ s v a, lastVal 1 (decodedFields q) = some s → s ≠ [] →
      lastVal 2 (decodedFields q) = some v → v ≠ [] →
      lastVal 4 (decodedFields q) = some a → parseFloat a = JSNum.nan →
      ∃ r, parseZATCAQR now q = some r ∧ r.totalAmount = some JSNum.nan ∧
        isValidZATCAQR now q = true) := by
  constructor
  · intro h
    have hnone : (parseZATCAQR now q).isSome = false := by
      rw [parse_isSome]
      rcases h with h | h | h <;> rw [lastVal_none_of_hasTag_false _ _ h] <;>
        simp [strTruthy]
    have hpn : parseZATCAQR now q = none := (isSome_false_iff_none _).mp hnone
    exact ⟨hpn, by simp [isValidZATCAQR, hpn]⟩
  · intro s v a h1 h2 h3 h4 h5 h6
    have hsome : (parseZATCAQR now q).isSome = true := by
      rw [parse_isSome, h1, h3, h5, strTruthy_some_ne s h2, strTruthy_some_ne v h4]
      rfl
    obtain ⟨r, hr⟩ := isSome_true_exists _ hsome
    refine ⟨r, hr, ?_, by simp [isValidZATCAQR, hr]⟩
    rw [(parse_proj now q r hr).2.2.2.2.1, h5, Option.map_some', h6]

/-- Witness for `c1_missing_tag_rejects_nan_total_accepted`: the input
missing tag 1 is rejected, and the input with tag 4 = `xyz` is accepted
with a `NaN` total. -/
theorem c1_witness :
    (parseZATCAQR 0 [2, 1, 66, 4, 3, 49, 48, 48] = none ∧
      isValidZATCAQR 0 [2, 1, 66, 4, 3, 49, 48, 48] = false) ∧
    (∃ r, parseZATCAQR 0 [1, 1, 65, 2, 1, 66, 4, 3, 120, 121, 122] = some r ∧
      r.totalAmount = some JSNum.nan ∧
      isValidZATCAQR 0 [1, 1, 65, 2, 1, 66, 4, 3, 120, 121, 122] = true) :=
  ⟨(c1_missing_tag_rejects_nan_total_accepted 0 [2, 1, 66, 4, 3, 49, 48, 48]).1
      (Or.inl (by with_unfolding_all decide)),
   (c1_missing_tag_rejects_nan_total_accepted 0
        [1, 1, 65, 2, 1, 66, 4, 3, 120, 121, 122]).2
      [65] [66] [120, 121, 122]
      (by with_unfolding_all decide) (by decide)
      (by with_unfolding_all decide) (by decide)
      (by with_unfolding_all decide) (by with_unfolding_all decide)⟩

/-- Counterexample to C1 as stated: the tag-4 value `xyz` is non-numeric
text (`parseFloat` gives `NaN`), yet `isValidZATCAQR` returns true
instead of false. -/
theorem c1_cex :
    parseFloat [120, 121, 122] = JSNum.nan ∧
    isValidZATCAQR 0 [1, 1, 65, 2, 1, 66, 4, 3, 120, 121, 122] = true := by
  constructor <;> with_unfolding_all decide

/-- C2 (corrected): every record returned by `parseZATCAQR` has a
non-empty `sellerName`, a non-empty `vatNumber` and a present
`totalAmount`; contrary to the original claim the present `totalAmount`
may be the malformed value `NaN`. -/
theorem c2_returned_record_required_fields (now : Nat) (q : List Nat)
    (r : ZATCAData) (h : parseZATCAQR now q = some r) :
    ∃ s v, r.sellerName = some s ∧ s ≠ [] ∧ r.vatNumber = some v ∧ v ≠ [] ∧
      r.totalAmount.isSome = true := by
  have hs : (parseZATCAQR now q).isSome = true := by rw [h]; rfl
  rw [parse_isSome] at hs
  have hp := parse_proj now q r h
  cases hl1 : lastVal 1 (decodedFields q) with
  | none => rw [hl1] at hs; simp [strTruthy] at hs
  | some s =>
      cases hl2 : lastVal 2 (decodedFields q) with
      | none => rw [hl2] at hs; simp [strTruthy] at hs
      | some v =>
          refine ⟨s, v, ?_, ?_, ?_, ?_, ?_⟩
          · rw [hp.1, hl1]
          · intro hnil
            subst hnil
            rw [hl1] at hs
            simp [strTruthy] at hs
          · rw [hp.2.1, hl2]
          · intro hnil
            subst hnil
            rw [hl2] at hs
            simp [strTruthy] at hs
          · rw [hp.2.2.2.2.1]
            cases hl4 : lastVal 4 (decodedFields q) with
            | none => rw [hl4] at hs; simp at hs
            | some a => simp

/-- Record returned by the parser on the concrete input of `c2_witness`. -/
def c2rec : ZATCAData :=
  { sellerName := some [67], vatNumber := some [68],
    invoiceNumber := some [73, 78, 86, 45, 48], invoiceDate := none,
    subtotal := none, vatAmount := none,
    totalAmount := some (JSNum.num 5) }

/-- Witness for `c2_returned_record_required_fields` at a concrete
accepted input. -/
theorem c2_witness :
    ∃ s v, c2rec.sellerName = some s ∧ s ≠ [] ∧ c2rec.vatNumber = some v ∧
      v ≠ [] ∧ c2rec.totalAmount.isSome = true :=
  c2_returned_record_required_fields 0 [1, 1, 67, 2, 1, 68, 4, 1, 53] c2rec
    (by with_unfolding_all decide)

/-- Counterexample to C2 as stated: a record is returned whose
`totalAmount` is the malformed value `NaN`. -/
theorem c2_cex :
    (parseZATCAQR 0 [1, 1, 65, 2, 1, 66, 4, 1, 120]).bind ZATCAData.totalAmount
      = some JSNum.nan := by
  with_unfolding_all decide

/-- C3 (confirmed): at each step the walker reads one code unit as the
tag and the next as the length, extracts exactly `length` units as the
value, and advances the cursor by `2 + length` (here: continues on the
remainder after dropping the value); a length of 0 yields the empty
value; and on the base64 path every decoded unit is a single byte in
0–255, so tag and length are single-byte unsigned values. -/
theorem c3_walker_reads_tag_length_value (tag len : Nat) (rest q d : List Nat) :
    (tlvFields (tag :: len :: rest) =
      if rest.length < len then []
      else (tag, rest.take len) :: tlvFields (rest.drop len)) ∧
    (tlvFields (tag :: 0 :: rest) = (tag, []) :: tlvFields rest) ∧
    (atob q = some d → d.all (fun c => decide (c < 256)) = true) := by
  refine ⟨tlvFields_step tag len rest, ?_, ?_⟩
  · rw [tlvFields_step]
    simp
  · intro h
    rw [List.all_eq_true]
    intro c hc
    simpa using atob_bytes_lt q d h c hc

/-- Witness for `c3_walker_reads_tag_length_value`: a zero-length field
yields an empty value, and the bytes decoded from the base64 input
`AAAA` all lie below 256. -/
theorem c3_witness :
    tlvFields [9, 0, 7, 1, 65] = (9, []) :: tlvFields [7, 1, 65] ∧
    [0, 0, 0].all (fun c => decide (c < 256)) = true :=
  ⟨(c3_walker_reads_tag_length_value 9 0 [7, 1, 65] [] []).2.1,
   (c3_walker_reads_tag_length_value 0 0 [] [65, 65, 65, 65] [0, 0, 0]).2.2
     (by decide)⟩

/-- C4 (confirmed): the parser is a total function of its input (it is a
Lean function, so it terminates and cannot throw); a walk cut mid-header
or mid-value stops cleanly with no further fields; for every cutoff
position the fields of the truncated sequence are an initial segment of
the fields of the full sequence; and the parse result is determined by
the complete TLV fields of the decoded input alone. -/
theorem c4_truncation_safety (now : Nat) (q1 q2 : List Nat) (t l k : Nat)
    (rest d : List Nat) :
    (tlvFields [] = [] ∧ tlvFields [t] = []) ∧
    (rest.length < l → tlvFields (t :: l :: rest) = []) ∧
    (∃ tl, tlvFields d = tlvFields (d.take k) ++ tl) ∧
    (tlvFields (decodeRaw q1) = tlvFields (decodeRaw q2) →
      parseZATCAQR now q1 = parseZATCAQR now q2) := by
  refine ⟨⟨tlvFields_nil, tlvFields_single t⟩, ?_,
    tlvFields_take_eq d.length d le_rfl k, ?_⟩
  · intro h
    rw [tlvFields_step, if_pos h]
  · intro h
    simp only [parseZATCAQR, interpretDecoded, tlvLoop_eq_applyFields, h]

/-- Witness for `c4_truncation_safety`: a value truncated mid-field
yields no fields, and two inputs with identical decoded fields parse
identically. -/
theorem c4_witness :
    tlvFields [7, 5, 1, 2] = [] ∧
    parseZATCAQR 0 [1, 1, 65] = parseZATCAQR 0 [1, 1, 65, 9] :=
  ⟨(c4_truncation_safety 0 [] [] 7 5 0 [1, 2] []).2.1 (by decide),
   (c4_truncation_safety 0 [1, 1, 65] [1, 1, 65, 9] 0 0 0 [] []).2.2.2
     (by decide)⟩

/-- C5 (confirmed): whenever the decoded stream has complete tag-1 and
tag-2 fields with non-empty (last) values and a complete tag-4 field
whose text parses to a finite number, the parser returns a record whose
`sellerName`, `vatNumber` and `totalAmount` are exactly those decoded
values. -/
theorem c5_complete_input_accepted (now : Nat) (q : List Nat)
    (s v a : List Nat) (x : ℚ)
    (h1 : lastVal 1 (decodedFields q) = some s) (h2 : s ≠ [])
    (h3 : lastVal 2 (decodedFields q) = some v) (h4 : v ≠ [])
    (h5 : lastVal 4 (decodedFields q) = some a)
    (h6 : parseFloat a = JSNum.num x) :
    ∃ r, parseZATCAQR now q = some r ∧ r.sellerName = some s ∧
      r.vatNumber = some v ∧ r.totalAmount = some (JSNum.num x) := by
  have hsome : (parseZATCAQR now q).isSome = true := by
    rw [parse_isSome, h1, h3, h5, strTruthy_some_ne s h2, strTruthy_some_ne v h4]
    rfl
  obtain ⟨r, hr⟩ := isSome_true_exists _ hsome
  have hp := parse_proj now q r hr
  refine ⟨r, hr, ?_, ?_, ?_⟩
  · rw [hp.1, h1]
  · rw [hp.2.1, h3]
  · rw [hp.2.2.2.2.1, h5, Option.map_some', h6]

/-- Witness for `c5_complete_input_accepted`: seller `A`, VAT number
`B`, total `100`. -/
theorem c5_witness :
    ∃ r, parseZATCAQR 0 [1, 1, 65, 2, 1, 66, 4, 3, 49, 48, 48] = some r ∧
      r.sellerName = some [65] ∧ r.vatNumber = some [66] ∧
      r.totalAmount = some (JSNum.num 100) :=
  c5_complete_input_accepted 0 [1, 1, 65, 2, 1, 66, 4, 3, 49, 48, 48]
    [65] [66] [49, 48, 48] 100
    (by with_unfolding_all decide) (by decide)
    (by with_unfolding_all decide) (by decide)
    (by with_unfolding_all decide) (by with_unfolding_all decide)

/-- C6 (corrected): the subtotal is computed only when both amounts are
truthy, i.e. present, finite-or-infinite numeric, and nonzero; when both
parse to nonzero finite numbers the returned record has
`subtotal = totalAmount − vatAmount` exactly, and when either amount is
absent the subtotal is left unset.  Contrary to the original claim, a
present, well-formed amount equal to 0 is falsy, so the subtotal is then
left unset as well (see the counterexample). -/
theorem c6_subtotal_derivation (now : Nat) (q : List Nat) (r : ZATCAData)
    (h : parseZATCAQR now q = some r) :
    (∀ a b x y, lastVal 4 (decodedFields q) = some a →
      lastVal 5 (decodedFields q) = some b →
      parseFloat a = JSNum.num x → x ≠ 0 →
      parseFloat b = JSNum.num y → y ≠ 0 →
      r.subtotal = some (JSNum.num (x - y))) ∧
    ((lastVal 4 (decodedFields q) = none ∨ lastVal 5 (decodedFields q) = none) →
      r.subtotal = none) := by
  have hsub := (parse_proj now q r h).2.2.2.2.2.2
  constructor
  · intro a b x y h4 h5 hx hx0 hy hy0
    rw [hsub, h4, h5, Option.map_some', Option.map_some', hx, hy]
    have hcond : (numTruthy (some (JSNum.num x)) &&
        numTruthy (some (JSNum.num y))) = true := by
      simp [numTruthy, JSNum.truthy, hx0, hy0]
    rw [if_pos hcond]
    simp [JSNum.sub]
  · intro hab
    rw [hsub]
    rcases hab with h' | h' <;> rw [h'] <;> simp [numTruthy]

/-- Record returned on the input of `c6_witness`
(tag 4 = `115.00`, tag 5 = `15.00`). -/
def c6rec : ZATCAData :=
  { sellerName := some [65], vatNumber := some [66],
    invoiceNumber := some [73, 78, 86, 45, 48], invoiceDate := none,
    subtotal := some (JSNum.num 100), vatAmount := some (JSNum.num 15),
    totalAmount := some (JSNum.num 115) }

/-- Witness for `c6_subtotal_derivation`: with tag 4 = `115.00` and
tag 5 = `15.00` the subtotal is exactly `115 − 15 = 100`. -/
theorem c6_witness : c6rec.subtotal = some (JSNum.num (115 - 15)) :=
  (c6_subtotal_derivation 0
      [1, 1, 65, 2, 1, 66, 4, 6, 49, 49, 53, 46, 48, 48, 5, 5, 49, 53, 46, 48, 48]
      c6rec (by with_unfolding_all decide)).1
    [49, 49, 53, 46, 48, 48] [49, 53, 46, 48, 48] 115 15
    (by with_unfolding_all decide) (by with_unfolding_all decide)
    (by with_unfolding_all decide) (by norm_num)
    (by with_unfolding_all decide) (by norm_num)

/-- Counterexample to C6 as stated: tag 4 = `115` and tag 5 = `0` are both
present and well-formed numeric values, yet the returned record has no
subtotal (the claim demands `subtotal = 115 − 0 = 115`), because `0` is
falsy in the `data.totalAmount && data.vatAmount` guard. -/
theorem c6_cex :
    (parseZATCAQR 0 [1, 1, 65, 2, 1, 66, 4, 3, 49, 49, 53, 5, 1, 48]).bind
        ZATCAData.vatAmount = some (JSNum.num 0) ∧
    (parseZATCAQR 0 [1, 1, 65, 2, 1, 66, 4, 3, 49, 49, 53, 5, 1, 48]).bind
        ZATCAData.subtotal = none := by
  constructor <;> with_unfolding_all decide

/-- C7 (confirmed): when the decoded stream has a complete tag-3 field,
the returned record's `invoiceDate` is exactly the code units of that
value before the first `'T'` (code 84), i.e. `value.split('T')[0]`. -/
theorem c7_invoice_date_truncation (now : Nat) (q : List Nat) (r : ZATCAData)
    (dt : List Nat) (h : parseZATCAQR now q = some r)
    (h3 : lastVal 3 (decodedFields q) = some dt) :
    r.invoiceDate = some (dt.takeWhile (fun c => c != 84)) := by
  rw [(parse_proj now q r h).2.2.2.1, h3, Option.map_some']

/-- Record returned on the input of `c7_witness`
(tag 3 = `2024-03-15T10:30:00Z`). -/
def c7rec : ZATCAData :=
  { sellerName := some [65], vatNumber := some [66],
    invoiceNumber := some [73, 78, 86, 45, 48],
    invoiceDate := some [50, 48, 50, 52, 45, 48, 51, 45, 49, 53],
    subtotal := none, vatAmount := none,
    totalAmount := some (JSNum.num 100) }

/-- Witness for `c7_invoice_date_truncation`: tag 3 =
`2024-03-15T10:30:00Z` yields `invoiceDate = 2024-03-15`. -/
theorem c7_witness :
    c7rec.invoiceDate = some (List.takeWhile (fun c => c != 84)
      [50, 48, 50, 52, 45, 48, 51, 45, 49, 53, 84, 49, 48, 58, 51,
       48, 58, 48, 48, 90]) :=
  c7_invoice_date_truncation 0
    [1, 1, 65, 2, 1, 66, 3, 20, 50, 48, 50, 52, 45, 48, 51, 45, 49, 53, 84,
     49, 48, 58, 51, 48, 58, 48, 48, 90, 4, 3, 49, 48, 48]
    c7rec
    [50, 48, 50, 52, 45, 48, 51, 45, 49, 53, 84, 49, 48, 58, 51, 48, 58, 48, 48, 90]
    (by with_unfolding_all decide) (by with_unfolding_all decide)

/-- C8 (confirmed): inserting one complete TLV field with an unrecognized
tag (any tag other than 1–5, e.g. 99) of arbitrary value anywhere between
the fields of a decoded sequence leaves the decode result unchanged: the
walker advances over the field but the `switch` ignores it. -/
theorem c8_unknown_tag_transparent (now : Nat) (fs1 fs2 : List (Nat × List Nat))
    (t : Nat) (v rest : List Nat)
    (h : ¬(t = 1 ∨ t = 2 ∨ t = 3 ∨ t = 4 ∨ t = 5)) :
    interpretDecoded now (encodeFields (fs1 ++ (t, v) :: fs2) ++ rest) =
      interpretDecoded now (encodeFields (fs1 ++ fs2) ++ rest) := by
  have e1 : (fs1 ++ (t, v) :: fs2) ++ tlvFields rest =
      fs1 ++ (t, v) :: (fs2 ++ tlvFields rest) := by simp
  have e2 : (fs1 ++ fs2) ++ tlvFields rest =
      fs1 ++ (fs2 ++ tlvFields rest) := by simp
  simp only [interpretDecoded, tlvLoop_eq_applyFields, tlvFields_encodeFields]
  rw [e1, e2, applyFields_erase_unknown _ _ _ _ _ h]

/-- Witness for `c8_unknown_tag_transparent`: tag 99 of length 3 between
tags 1 and 2/4 changes nothing. -/
theorem c8_witness :
    interpretDecoded 0
        (encodeFields ([(1, [65])] ++ (99, [1, 2, 3]) :: [(2, [66]), (4, [49])]) ++ []) =
      interpretDecoded 0 (encodeFields ([(1, [65])] ++ [(2, [66]), (4, [49])]) ++ []) :=
  c8_unknown_tag_transparent 0 [(1, [65])] [(2, [66]), (4, [49])] 99 [1, 2, 3] []
    (by decide)

/-- C9 (confirmed): parsing the same raw string at two different wall
clock readings rejects both times or accepts both times, and on
acceptance the two records agree on every field except the synthesized
invoice number; all validated/derived fields are a deterministic function
of the input alone. -/
theorem c9_deterministic_up_to_invoice_number (now1 now2 : Nat) (q : List Nat) :
    (parseZATCAQR now1 q = none ↔ parseZATCAQR now2 q = none) ∧
    (∀ r1 r2, parseZATCAQR now1 q = some r1 → parseZATCAQR now2 q = some r2 →
      r1.sellerName = r2.sellerName ∧ r1.vatNumber = r2.vatNumber ∧
      r1.invoiceDate = r2.invoiceDate ∧ r1.totalAmount = r2.totalAmount ∧
      r1.vatAmount = r2.vatAmount ∧ r1.subtotal = r2.subtotal) := by
  have hkey : (parseZATCAQR now1 q).isSome = (parseZATCAQR now2 q).isSome := by
    rw [parse_isSome, parse_isSome]
  constructor
  · constructor <;> intro h <;> rw [h] at hkey
    · exact (isSome_false_iff_none _).mp hkey.symm
    · exact (isSome_false_iff_none _).mp hkey
  · intro r1 r2 h1 h2
    have p1 := parse_proj now1 q r1 h1
    have p2 := parse_proj now2 q r2 h2
    exact ⟨p1.1.trans p2.1.symm, p1.2.1.trans p2.2.1.symm,
      p1.2.2.2.1.trans p2.2.2.2.1.symm, p1.2.2.2.2.1.trans p2.2.2.2.2.1.symm,
      p1.2.2.2.2.2.1.trans p2.2.2.2.2.2.1.symm,
      p1.2.2.2.2.2.2.trans p2.2.2.2.2.2.2.symm⟩

/-- Record returned at clock reading 0 on the input of `c9_witness`. -/
def c9recA : ZATCAData :=
  { sellerName := some [65], vatNumber := some [66],
    invoiceNumber := some [73, 78, 86, 45, 48], invoiceDate := none,
    subtotal := none, vatAmount := none,
    totalAmount := some (JSNum.num 100) }

/-- Record returned at clock reading 1 on the input of `c9_witness`:
only the synthesized invoice number differs. -/
def c9recB : ZATCAData :=
  { sellerName := some [65], vatNumber := some [66],
    invoiceNumber := some [73, 78, 86, 45, 49], invoiceDate := none,
    subtotal := none, vatAmount := none,
    totalAmount := some (JSNum.num 100) }

/-- Witness for `c9_deterministic_up_to_invoice_number` at a concrete
input parsed at clock readings 0 and 1. -/
theorem c9_witness :
    c9recA.sellerName = c9recB.sellerName ∧
    c9recA.vatNumber = c9recB.vatNumber ∧
    c9recA.invoiceDate = c9recB.invoiceDate ∧
    c9recA.totalAmount = c9recB.totalAmount ∧
    c9recA.vatAmount = c9recB.vatAmount ∧
    c9recA.subtotal = c9recB.subtotal :=
  (c9_deterministic_up_to_invoice_number 0 1 [1, 1, 65, 2, 1, 66, 4, 3, 49, 48, 48]).2
    c9recA c9recB (by with_unfolding_all decide) (by with_unfolding_all decide)

/-- C10 (confirmed): `lastVal` returns the value of the last field with a
given tag (first conjunct), and the returned record's recognized fields
are exactly the transforms of the `lastVal` of tags 1–5 of the decoded
stream, so a later occurrence of a recognized tag overwrites an earlier
one and duplication by itself causes no error or rejection. -/
theorem c10_duplicate_tag_last_wins (now : Nat) (q : List Nat) (r : ZATCAData)
    (h : parseZATCAQR now q = some r) :
    (∀ (t : Nat) (fs : List (Nat × List Nat)) (w : List Nat),
      lastVal t (fs ++ [(t, w)]) = some w) ∧
    (r.sellerName = lastVal 1 (decodedFields q) ∧
     r.vatNumber = lastVal 2 (decodedFields q) ∧
     r.invoiceDate = (lastVal 3 (decodedFields q)).map
       (fun w => w.takeWhile (fun c => c != 84)) ∧
     r.totalAmount = (lastVal 4 (decodedFields q)).map parseFloat ∧
     r.vatAmount = (lastVal 5 (decodedFields q)).map parseFloat) := by
  have hp := parse_proj now q r h
  exact ⟨fun t fs w => lastVal_append_last t fs w,
    hp.1, hp.2.1, hp.2.2.2.1, hp.2.2.2.2.1, hp.2.2.2.2.2.1⟩

/-- Record returned on the input of `c10_witness`, whose duplicated tag 1
(`A` then `C`) resolves to the later value `C`. -/
def c10rec : ZATCAData :=
  { sellerName := some [67], vatNumber := some [66],
    invoiceNumber := some [73, 78, 86, 45, 48], invoiceDate := none,
    subtotal := none, vatAmount := none,
    totalAmount := some (JSNum.num 100) }

/-- Witness for `c10_duplicate_tag_last_wins` on an input with two tag-1
fields; the parse is accepted (no rejection from the duplicate) and the
record holds the later seller name. -/
theorem c10_witness :
    lastVal 77 ([] ++ [(77, [5])]) = some [5] ∧
    c10rec.sellerName =
      lastVal 1 (decodedFields [1, 1, 65, 1, 1, 67, 2, 1, 66, 4, 3, 49, 48, 48]) := by
  have H := c10_duplicate_tag_last_wins 0
    [1, 1, 65, 1, 1, 67, 2, 1, 66, 4, 3, 49, 48, 48] c10rec
    (by with_unfolding_all decide)
  exact ⟨H.1 77 [] [5], H.2.1⟩
